import Mathlib

/-!
Verification of the parquet regression-comparison engine.

A shallow embedding of the per-pair comparison pipeline of
`parquet_comparator` (schema diff, key inference, checksum, precise key-join
diff, fuzzy record linkage, orchestrator, summary shaper), with theorems
settling the behavioural claims about it.

Modelling conventions:

* Cell values are the inductive `Val`; a missing value (Python `None` /
  `NaN` / polars `null`) is `Val.vNull`.  Floating-point cells are modelled
  as rationals (`vFloat : Rat`); the claims under study concern tolerance
  arithmetic and null handling, not IEEE rounding.
* A table (`Table`) is a schema (ordered list of column name/dtype pairs)
  together with rows; each row is an association list from column name to
  value, which models name-based cell access in pandas/polars.
* `main.py` builds `common_cols` as `list(set(a) & set(b))`.  the CPython
  string-set iteration order is unspecified (hash-randomised); we model it
  deterministically as the before-table column order.
* The SHA-256 digests are modelled injectively: the digest of a table is the
  canonically sorted row list itself.  This models a collision-free,
  deterministic, order-independent hash, which is all the code relies on.
* `jellyfish.jaro_winkler_similarity` is an external library; the fuzzy
  comparator is parameterised by a similarity function `jw`.  Theorems that
  need concrete evaluation instantiate it with `jwModel`, which agrees with
  Jaro-Winkler on every pair of strings those evaluations actually compare
  (equal strings score `1`).
* Polars comparisons are Kleene-valued: comparing with `null` yields `null`,
  and `filter` keeps only rows whose mask is `true`.  pandas `groupby` drops
  null group keys.  Both are modelled explicitly.
* A Python run that raises an uncaught exception is modelled as `none`
  (`Option`-valued functions).
-/

/-- A cell value.  `vNull` models Python `None`, pandas `NaN` and polars
`null` uniformly. -/
inductive Val where
  | vNull : Val
  | vInt : Int → Val
  | vFloat : Rat → Val
  | vStr : String → Val
  | vBool : Bool → Val
deriving DecidableEq, Repr

/-- Column dtypes distinguished by the code. -/
inductive Dtype where
  | dInt | dFloat | dStr | dBool | dDatetime
deriving DecidableEq, Repr

/-- Numeric dtypes in the pandas sense (`pd.api.types.is_numeric_dtype`):
integers, floats and booleans. -/
def Dtype.isNumericPandas : Dtype → Bool
  | .dInt => true
  | .dFloat => true
  | .dBool => true
  | _ => false

/-- A row: association list from column name to value. -/
abbrev Row := List (String × Val)

/-- Name-based cell access; a missing column reads as null. -/
def Row.get (r : Row) (c : String) : Val :=
  (r.lookup c).getD Val.vNull

/-- A table: ordered schema plus rows. -/
structure Table where
  schema : List (String × Dtype)
  rows : List Row
deriving DecidableEq, Repr

/-- Column names of a table, in schema order. -/
def Table.colNames (t : Table) : List String :=
  t.schema.map Prod.fst

/-- Values of one column, in row order. -/
def Table.colVals (t : Table) (c : String) : List Val :=
  t.rows.map (fun r => r.get c)

/-- The dtype of a column (defaulting to string for a missing name). -/
def Table.dtypeOf (t : Table) (c : String) : Dtype :=
  (t.schema.lookup c).getD Dtype.dStr

/-- Number of rows. -/
def Table.height (t : Table) : Nat := t.rows.length

/-- pandas `Series.nunique()` / polars-style distinct count over the
non-null values of a column. -/
def nuniqueVals (vs : List Val) : Nat :=
  ((vs.filter (fun v => v ≠ Val.vNull)).dedup).length

/-- pandas `Series.is_unique`: no value occurs twice, where all nulls
count as the same value (a series with two `NaN`s is not unique, one
`NaN` is fine). -/
def isUniqueVals (vs : List Val) : Bool :=
  vs.Nodup

/-- Keep only the named columns of each row, in the given order. -/
def Row.selectCols (r : Row) (cs : List String) : Row :=
  cs.map (fun c => (c, r.get c))

/-- Project a table onto the named columns (in that order), dtypes taken
from the original schema. -/
def Table.selectCols (t : Table) (cs : List String) : Table :=
  { schema := cs.map (fun c => (c, t.dtypeOf c)),
    rows := t.rows.map (fun r => r.selectCols cs) }

/-- Drop the named columns from a table. -/
def Table.dropCols (t : Table) (cs : List String) : Table :=
  t.selectCols (t.colNames.filter (fun c => c ∉ cs))

/-- `list(set(before) & set(after))` of `main.py` / `comparison.py`,
modelling the unspecified CPython set order as before-table column order. -/
def commonColsOf (b a : Table) : List String :=
  b.colNames.filter (fun c => c ∈ a.colNames)

/-! Part: Schema diff (`schemas.py`, `main.py::_check_schemas`) -/

/-- `SchemaDiff` of `schemas.py`. -/
structure SchemaDiff where
  is_identical : Bool := true
  added_columns : List (String × String) := []
  removed_columns : List (String × String) := []
  type_changes : List (String × String × String) := []
deriving DecidableEq, Repr

/-- Render a dtype the way `str(field.type)` would. -/
def Dtype.typeName : Dtype → String
  | .dInt => "int64"
  | .dFloat => "double"
  | .dStr => "string"
  | .dBool => "bool"
  | .dDatetime => "timestamp[ns]"

/-- `main.py::_check_schemas`: structural diff of the two file schemas.
Schema equality is order-sensitive (pyarrow `Schema.equals`); added /
removed / type-changed columns are computed by name. -/
def checkSchemas (sb sa : List (String × Dtype)) : SchemaDiff :=
  if sb = sa then { is_identical := true }
  else
    let namesB := sb.map Prod.fst
    let namesA := sa.map Prod.fst
    let added := (sa.filter (fun p => p.1 ∉ namesB)).map
      (fun p => (p.1, p.2.typeName))
    let removed := (sb.filter (fun p => p.1 ∉ namesA)).map
      (fun p => (p.1, p.2.typeName))
    let changes := (sb.filterMap (fun p =>
      match sa.lookup p.1 with
      | some d => if d ≠ p.2 then some (p.1, p.2.typeName, d.typeName) else none
      | none => none))
    { is_identical := false, added_columns := added,
      removed_columns := removed, type_changes := changes }

/-! Part: Key inference (`inference.py::infer_sort_keys`, pandas) -/

/-- The first loop of `infer_sort_keys`: scan columns in order; on a
perfectly unique non-numeric column return it immediately (`inl`),
otherwise collect unique (numeric) columns as candidates (`inr`). -/
def inferScan (t : Table) : List (String × Dtype) → List String →
    List String ⊕ List String
  | [], cands => Sum.inr cands
  | c :: rest, cands =>
    if isUniqueVals (t.colVals c.1) then
      if ¬ c.2.isNumericPandas then Sum.inl [c.1]
      else inferScan t rest (cands ++ [c.1])
    else inferScan t rest cands

/-- `inference.py::infer_sort_keys`. -/
def inferSortKeys (t : Table) (minUniq : Rat) : List String :=
  if t.height = 0 then []
  else
    match inferScan t t.schema [] with
    | Sum.inl ks => ks
    | Sum.inr cands =>
      if cands ≠ [] then cands.take 1
      else
        ((t.schema.filter (fun c =>
            minUniq ≤ (nuniqueVals (t.colVals c.1) : Rat) / t.height)).map
          Prod.fst).take 1

/-! Part: Order-independent checksum (`checksum.py::generate_checksum`, pandas) -/

/-- Constructor rank, ordering values of different kinds. -/
def Val.rankNat : Val → Nat
  | .vNull => 0
  | .vBool _ => 1
  | .vInt _ => 2
  | .vFloat _ => 3
  | .vStr _ => 4

/-- Lexicographic `≤` on character lists by code point. -/
def charsLeB : List Char → List Char → Bool
  | [], _ => true
  | _ :: _, [] => false
  | c :: cs, d :: ds =>
    if c = d then charsLeB cs ds else decide (c.toNat ≤ d.toNat)

/-- A fixed total order on cell values, modelling the deterministic
ascending sort of `DataFrame.sort_values`: by kind, then by value. -/
def Val.leB (v w : Val) : Bool :=
  match v, w with
  | .vBool a, .vBool b => !a || b
  | .vInt a, .vInt b => decide (a ≤ b)
  | .vFloat a, .vFloat b => decide (a ≤ b)
  | .vStr a, .vStr b => charsLeB a.data b.data
  | _, _ => decide (v.rankNat ≤ w.rankNat)

/-- Lexicographic `≤` on the tuple of the given key columns of two rows. -/
def rowKeyLeB (keys : List String) (r s : Row) : Bool :=
  match keys with
  | [] => true
  | k :: rest =>
    if r.get k = s.get k then rowKeyLeB rest r s
    else Val.leB (r.get k) (s.get k)

/-- Sort rows ascending by the key columns (`df.sort_values(by=sort_keys)`;
ties are left in a fixed deterministic order). -/
def sortRowsBy (keys : List String) (rows : List Row) : List Row :=
  rows.insertionSort (fun r s => rowKeyLeB keys r s)

/-- `checksum.py::generate_checksum`, with the file read modelled as the
table itself and the SHA-256 digest modelled injectively as the canonically
sorted row list.  Returns `none` when no key can be inferred. -/
def generateChecksum (t : Table) (keyUniqThreshold : Rat)
    (ignoreColumns : List String) : Option (List Row × List String) :=
  let df := t.dropCols ignoreColumns
  let keys := inferSortKeys df keyUniqThreshold
  if keys = [] then none
  else some (sortRowsBy keys df.rows, keys)

/-! Part: Precise comparator (`comparison.py::compare_dataframes_pl`) -/

/-- One long-form modification record (one differing cell). -/
structure ModRecord where
  key : String
  column : String
  value_before : String
  value_after : String
deriving DecidableEq, Repr

/-- `ComparisonData` of `comparison.py`: row-level diff plus identity flag. -/
structure CompData where
  added : List Row := []
  deleted : List Row := []
  modified : List ModRecord := []
  is_identical : Bool := true
deriving DecidableEq, Repr

/-- Python `str()` of a cell value, used when emitting modification
records. -/
def Val.pyStr : Val → String
  | .vNull => "None"
  | .vInt n => toString n
  | .vFloat q => toString q
  | .vStr s => s
  | .vBool b => if b then ("True") else ("False")

/-- polars `cast(pl.Utf8)`: null stays null, everything else becomes its
string rendering. -/
def Val.castUtf8 : Val → Val
  | .vNull => .vNull
  | v => .vStr v.pyStr

/-- Kleene (three-valued) inequality of polars: comparing with null gives
null (`none`). -/
def kNe (v w : Val) : Option Bool :=
  if v = Val.vNull ∨ w = Val.vNull then none else some (v ≠ w)

/-- Rational value of a float cell (0 for non-floats; the float branch is
only reached on float-typed columns). -/
def Val.asRat : Val → Rat
  | .vFloat q => q
  | .vInt n => (n : Rat)
  | _ => 0

/-- Kleene float difference mask `(before - after).abs() > tolerance`. -/
def kFloatGt (v w : Val) (tol : Rat) : Option Bool :=
  if v = Val.vNull ∨ w = Val.vNull then none
  else some (tol < |v.asRat - w.asRat|)

/-- One merged (outer-joined) row: coalesced key cells, the before-side
non-key cells under their own names, the after-side non-key cells under a
`_after` suffix. -/
def mergedRow (keys nonkeys : List String) (b a : Option Row) : Row :=
  (keys.map (fun k => (k, ((b.getD []).lookup k).getD (Row.get (a.getD []) k))))
    ++ (nonkeys.map (fun c => (c, Row.get (b.getD []) c)))
    ++ (nonkeys.map (fun c => (c ++ "_after", Row.get (a.getD []) c)))

/-- The tuple of key-column values of a row. -/
def keyTuple (keys : List String) (r : Row) : List Val :=
  keys.map (fun k => Row.get r k)

/-- Two rows join on the keys when the key tuples are equal and null-free
(polars joins do not match null keys). -/
def keysJoinable (keys : List String) (b a : Row) : Bool :=
  decide (keyTuple keys b = keyTuple keys a ∧ Val.vNull ∉ keyTuple keys b)

/-- Full outer join on the key columns with coalesced keys and an
`_after` suffix on the right-hand non-key columns. -/
def outerJoin (keys nonkeys : List String) (rb ra : List Row) : List Row :=
  (rb.flatMap (fun b =>
    let ms := ra.filter (fun a => keysJoinable keys b a)
    if ms.isEmpty then [mergedRow keys nonkeys (some b) none]
    else ms.map (fun a => mergedRow keys nonkeys (some b) (some a))))
  ++ ((ra.filter (fun a => ¬ rb.any (fun b => keysJoinable keys b a))).map
      (fun a => mergedRow keys nonkeys none (some a)))

/-- `str(tuple(key values))` of the modification emitter, modelled as a
parenthesised comma-separated rendering. -/
def keyStr (vs : List Val) : String :=
  "(" ++ String.intercalate (", ") (vs.map Val.pyStr) ++ ")"

/-- Cast the columns named in `schema_diff.type_changes` (and present among
the common columns) to string, as `compare_dataframes_pl` does before
joining. -/
def castTypeChanges (t : Table) (commonCols tcNames : List String) : Table :=
  { schema := t.schema.map (fun p =>
      if p.1 ∈ tcNames ∧ p.1 ∈ commonCols then (p.1, Dtype.dStr) else p),
    rows := t.rows.map (fun r => r.map (fun q =>
      if q.1 ∈ tcNames ∧ q.1 ∈ commonCols then (q.1, q.2.castUtf8) else q)) }

/-- The per-cell difference mask of `compare_dataframes_pl`:
`diff_mask & (col_before.is_not_null() | col_after.is_not_null())` where
`diff_mask` is the (Kleene) float-tolerance or inequality comparison.
`filter` keeps a row only when the mask is `true`. -/
def cellDiffMask (dtype : Dtype) (inTypeChanges : Bool) (tol : Rat)
    (vb va : Val) : Bool :=
  let dm := if dtype = Dtype.dFloat ∧ ¬ inTypeChanges
    then kFloatGt vb va tol else kNe vb va
  match dm with
  | none => false
  | some d => d && (decide (vb ≠ Val.vNull) || decide (va ≠ Val.vNull))

/-- `comparison.py::compare_dataframes_pl`. -/
def compareDataframesPl (dfB dfA : Table) (sortKeys : List String)
    (tol : Rat) (sd : SchemaDiff) : CompData :=
  let commonCols := commonColsOf dfB dfA
  let commonSortKeys := sortKeys.filter (fun k => k ∈ commonCols)
  if commonSortKeys = [] then { is_identical := sd.is_identical }
  else
    let tcNames := sd.type_changes.map Prod.fst
    let bC := (castTypeChanges dfB commonCols tcNames).selectCols commonCols
    let aC := (castTypeChanges dfA commonCols tcNames).selectCols commonCols
    let nonkeys := commonCols.filter (fun c => c ∉ commonSortKeys)
    let merged := outerJoin commonSortKeys nonkeys bC.rows aC.rows
    let w0 := commonCols.headD ("")
    let added := (merged.filter (fun r => Row.get r w0 = Val.vNull)).map
      (fun r => (commonSortKeys.map (fun k => (k, Row.get r k)))
        ++ (nonkeys.map (fun c => (c, Row.get r (c ++ "_after")))))
    let deleted := (merged.filter
        (fun r => Row.get r (w0 ++ "_after") = Val.vNull)).map
      (fun r => Row.selectCols r commonCols)
    let commonRows := merged.filter (fun r =>
      r.all (fun p => p.2 ≠ Val.vNull))
    let modified := nonkeys.flatMap (fun c =>
      (commonRows.filter (fun r =>
        cellDiffMask (bC.dtypeOf c) (c ∈ tcNames) tol
          (Row.get r c) (Row.get r (c ++ "_after")))).map
      (fun r =>
        { key := keyStr (keyTuple commonSortKeys r), column := c,
          value_before := (Row.get r c).pyStr,
          value_after := (Row.get r (c ++ "_after")).pyStr }))
    { added := added, deleted := deleted, modified := modified,
      is_identical := added = [] ∧ deleted = [] ∧ modified = []
        ∧ sd.is_identical }

/-! Part: Fuzzy comparator (`fuzzy_comparison_pandas.py::fuzzy_compare_dataframes`) -/

/-- One accepted fuzzy match: before row id, claimed after row id, score. -/
structure FuzzyMatch where
  idBefore : Nat
  idAfter : Nat
  score : Rat
deriving DecidableEq, Repr

/-- Mutable state of the greedy matching loop. -/
structure FuzzyState where
  matchedAfter : List Nat := []
  matchedBefore : List Nat := []
  pairs : List FuzzyMatch := []
  modified : List ModRecord := []
deriving DecidableEq, Repr

/-- Result of the pandas fuzzy comparison, with the internal match list
exposed alongside the `PandasComparisonData` fields. -/
structure FuzzyOut where
  addedIdx : List Nat
  deletedIdx : List Nat
  added : List Row
  deleted : List Row
  modified : List ModRecord
  pairs : List FuzzyMatch
  is_identical : Bool
deriving DecidableEq, Repr

/-- `_get_column_weights`: `1 + nunique/len` per column; empty dict on an
empty frame. -/
def columnWeights (t : Table) : List (String × Rat) :=
  if t.height = 0 then []
  else t.colNames.map (fun c =>
    (c, 1 + (nuniqueVals (t.colVals c) : Rat) / t.height))

/-- Python `max(d, key=d.get)`: the first entry with maximal value. -/
def argmaxFirst : List (String × Rat) → Option (String × Rat)
  | [] => none
  | p :: rest =>
    match argmaxFirst rest with
    | none => some p
    | some q => if p.2 < q.2 then some q else some p

/-- `_find_best_blocking_column` (pandas): among non-numeric,
non-datetime columns, the highest uniqueness fraction strictly between
0.1 and 0.95; else relax to fraction `< 0.99`; else none. -/
def findBestBlockingColumn (t : Table) : Option String :=
  let potential := t.schema.filter (fun p =>
    p.2 ≠ Dtype.dInt ∧ p.2 ≠ Dtype.dFloat ∧ p.2 ≠ Dtype.dDatetime)
  if potential.isEmpty then none
  else
    let cards := if t.height = 0 then []
      else potential.map (fun p =>
        (p.1, (nuniqueVals (t.colVals p.1) : Rat) / t.height))
    let candidates := cards.filter
      (fun q => (1 : Rat)/10 < q.2 ∧ q.2 < (95 : Rat)/100)
    if candidates.isEmpty then
      let fallback := cards.filter (fun q => q.2 < (99 : Rat)/100)
      if fallback.isEmpty then none else (argmaxFirst fallback).map Prod.fst
    else (argmaxFirst candidates).map Prod.fst

/-- Per-column similarity of `_calculate_row_similarity`: both null is 1,
one null is 0, two strings go through Jaro-Winkler, anything else is
exact equality. -/
def cellSim (jw : String → String → Rat) (vb va : Val) : Rat :=
  if vb = Val.vNull ∧ va = Val.vNull then 1
  else if vb ≠ Val.vNull ∧ va ≠ Val.vNull then
    match vb, va with
    | Val.vStr s, Val.vStr u => jw s u
    | _, _ => if vb = va then 1 else 0
  else 0

/-- `_calculate_row_similarity`: weighted mean of the per-column
similarities (0 when the total weight is 0). -/
def rowSim (jw : String → String → Rat) (weights : List (String × Rat))
    (cols : List String) (r1 r2 : Row) : Rat :=
  let ws := cols.map (fun c =>
    ((weights.lookup c).getD 1, cellSim jw (Row.get r1 c) (Row.get r2 c)))
  let total := (ws.map Prod.fst).sum
  if 0 < total then (ws.map (fun p => p.1 * p.2)).sum / total else 0

/-- Candidate after-side rows for one before-side row: the blocking group of
the blocking value of the before row.  pandas `groupby` drops null keys, so a
null blocking value finds no group and yields no candidates. -/
def searchRows (blocking : Option String) (afterRows : List (Nat × Row))
    (rb : Row) : List (Nat × Row) :=
  match blocking with
  | none => afterRows
  | some c =>
    if Row.get rb c = Val.vNull then []
    else afterRows.filter (fun p => Row.get p.2 c = Row.get rb c)

/-- The inner candidate scan: keep the first strictly-highest-scoring
unclaimed candidate, starting from `(best = none, highest = 0)`. -/
def bestScan (sim : Row → Rat) (matched : List Nat)
    (acc : Option Nat × Rat) : List (Nat × Row) → Option Nat × Rat
  | [] => acc
  | p :: rest =>
    if p.1 ∈ matched then bestScan sim matched acc rest
    else
      let s := sim p.2
      if acc.2 < s then bestScan sim matched (some p.1, s) rest
      else bestScan sim matched acc rest

/-- Renders a score the way the three-decimal Python format renders its
integral part of thousandths (representational only; nothing inspects
this string). -/
def scoreStr (q : Rat) : String :=
  toString (round (q * 1000) : Int)

/-- The long-form records emitted for one matched pair with score < 1:
one per column whose values differ (`np.isclose` for float/float pairs). -/
def fuzzyModRecords (cols : List String) (score : Rat) (rb ra : Row) :
    List ModRecord :=
  cols.filterMap (fun c =>
    let vb := Row.get rb c
    let va := Row.get ra c
    let plainDiff := vb ≠ va ∧ ¬ (vb = Val.vNull ∧ va = Val.vNull)
    let isDiff : Bool :=
      match vb, va with
      | Val.vFloat qb, Val.vFloat qa =>
        decide (¬ (|qb - qa| ≤ (1 : Rat)/100000000 + (1 : Rat)/100000 * |qa|))
      | _, _ => decide plainDiff
    if isDiff then
      some { key := "Fuzzy Match (Score: " ++ scoreStr score ++ ")",
             column := c, value_before := vb.pyStr, value_after := va.pyStr }
    else none)

/-- One iteration of the `for index_b, row_b in df_before.iterrows()` loop.
`none` models the `KeyError` the Python code raises through
`df_after_copy.loc[-1]` when a score of 0 passes the threshold with no
candidate selected. -/
def fuzzyStep (jw : String → String → Rat) (threshold : Rat)
    (blocking : Option String) (weights : List (String × Rat))
    (cols : List String) (afterRows : List (Nat × Row))
    (st : FuzzyState) (p : Nat × Row) : Option FuzzyState :=
  let cands := searchRows blocking afterRows p.2
  let best := bestScan (fun ra => rowSim jw weights cols p.2 ra)
    st.matchedAfter (none, 0) cands
  if threshold ≤ best.2 then
    match best.1 with
    | none => none
    | some j =>
      let ra := (afterRows.lookup j).getD []
      let newMods := if best.2 < 1 then fuzzyModRecords cols best.2 p.2 ra
        else []
      some { matchedAfter := st.matchedAfter ++ [j],
             matchedBefore := st.matchedBefore ++ [p.1],
             pairs := st.pairs ++ [⟨p.1, j, best.2⟩],
             modified := st.modified ++ newMods }
  else some st

/-- `fuzzy_compare_dataframes` (pandas): greedy left-anchored weighted
matching with blocking, returning `none` on an uncaught exception. -/
def fuzzyCompare (jw : String → String → Rat) (dfB dfA : Table)
    (threshold : Rat) : Option FuzzyOut :=
  let rowsB := dfB.rows.enum
  let rowsA := dfA.rows.enum
  let blocking := findBestBlockingColumn dfB
  let weights := columnWeights dfB
  let cols := dfB.colNames
  match rowsB.foldlM
      (fun st p => fuzzyStep jw threshold blocking weights cols rowsA st p)
      ({} : FuzzyState) with
  | none => none
  | some st =>
    let addedIdx := (rowsA.map Prod.fst).filter
      (fun i => i ∉ st.matchedAfter)
    let deletedIdx := (rowsB.map Prod.fst).filter
      (fun i => i ∉ st.matchedBefore)
    let added := addedIdx.map (fun i => (rowsA.lookup i).getD [])
    let deleted := deletedIdx.map (fun i => (rowsB.lookup i).getD [])
    some { addedIdx := addedIdx, deletedIdx := deletedIdx,
           added := added, deleted := deleted,
           modified := st.modified, pairs := st.pairs,
           is_identical := added = [] ∧ deleted = [] ∧ st.modified = [] }

/-! Part: spec-modelled stages and the orchestrator (`main.py::ParquetComparator.run`).

`main.py` imports `infer_sort_keys_pl` and `generate_checksum_pl`, which are
not present in the sources; the two definitions below are modelled from the
specification. -/

/-- Distinct count where null counts as one value (polars `n_unique`). -/
def nuniquePl (vs : List Val) : Nat :=
  vs.dedup.length

/-- Numeric dtypes in the polars sense: integers and floats. -/
def Dtype.isNumericPl : Dtype → Bool
  | .dInt => true
  | .dFloat => true
  | _ => false

/-- Modelled from the spec: `infer_sort_keys_pl` is imported by `main.py`
but missing from the sources.  Section 4.2 policy: the first non-numeric
perfectly unique column (`n_unique == n_rows`), else the first perfectly
unique column, else the first column with uniqueness `n_unique/n_rows ≥ t`,
else `[]`; an empty table yields `[]`. -/
def inferSortKeysPl (t : Table) (minUniq : Rat) : List String :=
  if t.height = 0 then []
  else
    match t.schema.find? (fun c =>
        nuniquePl (t.colVals c.1) = t.height ∧ ¬ c.2.isNumericPl) with
    | some c => [c.1]
    | none =>
      match t.schema.find? (fun c => nuniquePl (t.colVals c.1) = t.height) with
      | some c => [c.1]
      | none =>
        match t.schema.find? (fun c =>
            minUniq ≤ (nuniquePl (t.colVals c.1) : Rat) / t.height) with
        | some c => [c.1]
        | none => []

/-- Modelled from the spec: `generate_checksum_pl` is imported by `main.py`
but missing from the sources.  Section 4.3: `none` when a key column is
absent, otherwise a deterministic order-independent digest of the table,
modelled injectively as the row list sorted by the key columns with the
remaining columns in schema order as tie-break. -/
def generateChecksumPl (t : Table) (keys : List String) :
    Option (List Row) :=
  if keys ≠ [] ∧ ∀ k ∈ keys, k ∈ t.colNames then
    some (sortRowsBy (keys ++ t.colNames.filter (fun c => c ∉ keys)) t.rows)
  else none

/-- Steps 2 and 3 of `run`: drop the ignored columns from both raw tables
and project each onto the common columns. -/
def commonProj (dfBraw dfAraw : Table) (ignoreColumns : List String) :
    Table × Table :=
  let dfB0 := dfBraw.dropCols ignoreColumns
  let dfA0 := dfAraw.dropCols ignoreColumns
  let commonCols := commonColsOf dfB0 dfA0
  (dfB0.selectCols commonCols, dfA0.selectCols commonCols)

/-- The per-pair verdict of the orchestrator, with the invocation of the
checksum stage recorded. -/
structure RunOut where
  status : String
  checksumRan : Bool
deriving DecidableEq, Repr

/-- Whether `run` invokes the checksum stage: line 105 of `main.py`,
`if not skip_checksum and sort_keys:`. -/
def runChecksumGate (dfBraw dfAraw : Table) (keyUniqThreshold : Rat)
    (ignoreColumns : List String) (skipChecksum : Bool) : Prop :=
  ¬ skipChecksum ∧
    inferSortKeysPl (commonProj dfBraw dfAraw ignoreColumns).1
      keyUniqThreshold ≠ []

instance (dfBraw dfAraw kt ign skip) :
    Decidable (runChecksumGate dfBraw dfAraw kt ign skip) := by
  unfold runChecksumGate; infer_instance

/-- The status computed by `main.py::ParquetComparator.run` from the point
where both tables are loaded (the `READ_ERROR` path is the trivial earlier
exit): drop ignored columns, project both tables onto the common columns,
infer a key, optionally checksum, then precise or fuzzy diff, and label
the status.  `none` models an uncaught exception. -/
def runStatus (jw : String → String → Rat) (dfBraw dfAraw : Table)
    (keyUniqThreshold fuzzyThreshold floatTolerance : Rat)
    (ignoreColumns : List String) (skipChecksum : Bool) : Option String :=
  let sd := checkSchemas dfBraw.schema dfAraw.schema
  let dfB := (commonProj dfBraw dfAraw ignoreColumns).1
  let dfA := (commonProj dfBraw dfAraw ignoreColumns).2
  let sortKeys := inferSortKeysPl dfB keyUniqThreshold
  let ran := runChecksumGate dfBraw dfAraw keyUniqThreshold
    ignoreColumns skipChecksum
  let hb := generateChecksumPl dfB sortKeys
  let ha := generateChecksumPl dfA sortKeys
  let hashesEqual := hb.isSome ∧ ha.isSome ∧ hb = ha
  if ran ∧ hashesEqual ∧ sd.is_identical then
    some ("IDENTICAL (CHECKSUM_MATCH)")
  else
    let checksumStatus : Option String :=
      if ran then
        if hashesEqual then some ("CHECKSUM_MATCH_BUT_SCHEMA_DIFFERS")
        else some ("CHECKSUM_MISMATCH")
      else none
    if checksumStatus = some ("CHECKSUM_MATCH_BUT_SCHEMA_DIFFERS") then
      some ("DIFFERENCES_FOUND")
    else if sortKeys = [] then
      match fuzzyCompare jw dfB dfA fuzzyThreshold with
      | none => none
      | some fz =>
        some (if fz.is_identical ∧ sd.is_identical then ("FUZZY_IDENTICAL")
              else ("DIFFERENCES_FOUND"))
    else
      let comp := compareDataframesPl dfB dfA sortKeys floatTolerance sd
      some (if comp.is_identical ∧ sd.is_identical then
              if checksumStatus = some ("CHECKSUM_MISMATCH") then
                ("IDENTICAL (TOLERANCE_MATCH)")
              else ("IDENTICAL")
            else ("DIFFERENCES_FOUND"))

/-- `main.py::ParquetComparator.run`: the status paired with whether the
checksum stage was invoked. -/
def runComparator (jw : String → String → Rat) (dfBraw dfAraw : Table)
    (keyUniqThreshold fuzzyThreshold floatTolerance : Rat)
    (ignoreColumns : List String) (skipChecksum : Bool) : Option RunOut :=
  (runStatus jw dfBraw dfAraw keyUniqThreshold fuzzyThreshold floatTolerance
      ignoreColumns skipChecksum).map
    (fun s => ⟨s, decide (runChecksumGate dfBraw dfAraw keyUniqThreshold
      ignoreColumns skipChecksum)⟩)

/-! Part: Summary shaper (`reporting.py::ReportGenerator._create_summary`) -/

/-- `rows_modified`: distinct `key` values of the modified table (0 when
it is empty). -/
def summaryRowsModified (modified : List ModRecord) : Nat :=
  if 0 < modified.length then ((modified.map (fun m => m.key)).dedup).length
  else 0

/-- Modification count of one column. -/
def columnModCount (modified : List ModRecord) (c : String) : Nat :=
  (modified.filter (fun m => m.column = c)).length

/-- The grouped per-column counts (`group_by("column").agg(pl.count())`). -/
def columnCounts (modified : List ModRecord) : List (String × Nat) :=
  ((modified.map (fun m => m.column)).dedup).map
    (fun c => (c, columnModCount modified c))

/-- The sort relation of `top_modified_fields`: descending change count,
ties broken by ascending column name. -/
def topFieldLe (p q : String × Nat) : Prop :=
  q.2 < p.2 ∨ (p.2 = q.2 ∧ p.1 ≤ q.1)

instance : DecidableRel topFieldLe := fun p q => by
  unfold topFieldLe; infer_instance

instance : IsTotal (String × Nat) topFieldLe where
  total p q := by
    unfold topFieldLe
    rcases Nat.lt_trichotomy p.2 q.2 with h | h | h
    · exact Or.inr (Or.inl h)
    · rcases le_total p.1 q.1 with h2 | h2
      · exact Or.inl (Or.inr ⟨h, h2⟩)
      · exact Or.inr (Or.inr ⟨h.symm, h2⟩)
    · exact Or.inl (Or.inl h)

instance : IsTrans (String × Nat) topFieldLe where
  trans p q r hpq hqr := by
    unfold topFieldLe at *
    rcases hpq with h1 | ⟨e1, l1⟩
    · rcases hqr with h2 | ⟨e2, l2⟩
      · exact Or.inl (h2.trans h1)
      · exact Or.inl (e2 ▸ h1)
    · rcases hqr with h2 | ⟨e2, l2⟩
      · exact Or.inl (e1 ▸ h2)
      · exact Or.inr ⟨e1.trans e2, l1.trans l2⟩

/-- `top_modified_fields`: per-column counts sorted by descending count
then ascending name, first five. -/
def summaryTopModified (modified : List ModRecord) :
    List (String × Nat) :=
  if 0 < modified.length then
    ((columnCounts modified).insertionSort topFieldLe).take 5
  else []

/-! Part: Concrete inputs used by the claim theorems -/

/-- Stand-in for `jellyfish.jaro_winkler_similarity`, agreeing with it on
every pair the concrete evaluations below compare (equal strings score 1;
no unequal pair is ever scored in those runs). -/
def jwModel (s u : String) : Rat := if s = u then 1 else 0

/-- Before-table of the one-null-cell run: the column `v` is null on the
before side only. -/
def oneNullBefore : Table :=
  { schema := [("w", Dtype.dStr), ("k", Dtype.dInt), ("v", Dtype.dInt)],
    rows := [[("w", Val.vStr ("p")), ("k", Val.vInt 1), ("v", Val.vNull)]] }

/-- After-table of the one-null-cell run: `v` holds 5 where before was
null. -/
def oneNullAfter : Table :=
  { schema := [("w", Dtype.dStr), ("k", Dtype.dInt), ("v", Dtype.dInt)],
    rows := [[("w", Val.vStr ("p")), ("k", Val.vInt 1), ("v", Val.vInt 5)]] }

/-- Before-table with a duplicated key value 3 (two identical rows). -/
def dupKeyBefore : Table :=
  { schema := [("w", Dtype.dStr), ("k", Dtype.dInt), ("x", Dtype.dStr)],
    rows := [
      [("w", Val.vStr ("p")), ("k", Val.vInt 1), ("x", Val.vStr ("a"))],
      [("w", Val.vStr ("p")), ("k", Val.vInt 2), ("x", Val.vStr ("a"))],
      [("w", Val.vStr ("p")), ("k", Val.vInt 3), ("x", Val.vStr ("b"))],
      [("w", Val.vStr ("p")), ("k", Val.vInt 3), ("x", Val.vStr ("b"))]] }

/-- After-table equal to `dupKeyBefore` with one copy of the duplicated
key-3 row removed. -/
def dupKeyAfter : Table :=
  { schema := [("w", Dtype.dStr), ("k", Dtype.dInt), ("x", Dtype.dStr)],
    rows := [
      [("w", Val.vStr ("p")), ("k", Val.vInt 1), ("x", Val.vStr ("a"))],
      [("w", Val.vStr ("p")), ("k", Val.vInt 2), ("x", Val.vStr ("a"))],
      [("w", Val.vStr ("p")), ("k", Val.vInt 3), ("x", Val.vStr ("b"))]] }

/-- Table whose first column is unique in the pandas `is_unique` sense
(values `x`, null) but not perfectly unique in the `n_unique == n_rows`
sense, while the second column is perfectly unique. -/
def nullKeyTable : Table :=
  { schema := [("a", Dtype.dStr), ("b", Dtype.dStr)],
    rows := [
      [("a", Val.vStr ("x")), ("b", Val.vStr ("p"))],
      [("a", Val.vNull), ("b", Val.vStr ("q"))]] }

/-- One-string-column table with a null in the (chosen) blocking column. -/
def nullBlockTable : Table :=
  { schema := [("s", Dtype.dStr)],
    rows := [[("s", Val.vStr ("a"))], [("s", Val.vStr ("a"))],
             [("s", Val.vStr ("b"))], [("s", Val.vStr ("b"))],
             [("s", Val.vNull)]] }

/-- Keyless before-table for the fuzzy-path status run. -/
def fuzzyStatusBefore : Table :=
  { schema := [("s", Dtype.dStr)],
    rows := [[("s", Val.vStr ("x"))], [("s", Val.vStr ("x"))]] }

/-- Keyless after-table for the fuzzy-path status run: one value changed,
so the fuzzy diff has one added and one deleted row. -/
def fuzzyStatusAfter : Table :=
  { schema := [("s", Dtype.dStr)],
    rows := [[("s", Val.vStr ("x"))], [("s", Val.vStr ("y"))]] }

/-- Before-table of the differing-schemas checksum run. -/
def schemaDriftBefore : Table :=
  { schema := [("id", Dtype.dInt)],
    rows := [[("id", Val.vInt 1)], [("id", Val.vInt 2)]] }

/-- After-table of the differing-schemas checksum run: an extra column. -/
def schemaDriftAfter : Table :=
  { schema := [("id", Dtype.dInt), ("extra", Dtype.dStr)],
    rows := [[("id", Val.vInt 1), ("extra", Val.vStr ("x"))],
             [("id", Val.vInt 2), ("extra", Val.vStr ("y"))]] }

/-- One-row keyless table used to exercise the fuzzy comparator. -/
def tinyFuzzyTable : Table :=
  { schema := [("s", Dtype.dStr)], rows := [[("s", Val.vStr ("x"))]] }

/-- One-column one-row table used as a generic witness input. -/
def tinyTable : Table :=
  { schema := [("a", Dtype.dInt)], rows := [[("a", Val.vInt 1)]] }

/-- A small long-form modification table used as a witness input. -/
def exampleMods : List ModRecord :=
  [{ key := "(1)", column := "colB", value_before := "1", value_after := "2" },
   { key := "(1)", column := "colA", value_before := "1", value_after := "2" },
   { key := "(2)", column := "colA", value_before := "3", value_after := "4" }]

/-! Part: Claim theorems -/

section ClaimTheorems

attribute [local semireducible] Rat.add Rat.mul Rat.sub Rat.inv

/-- C4: on a joined row whose column `v` is null on the before side only,
the precise comparator emits no modification record at all (the row is
discarded by `drop_nulls` and the Kleene inequality never yields `true`),
and the pair is reported identical — against the specified one-null-is-
different rule. -/
theorem c4_one_null_cell_bug :
    compareDataframesPl oneNullBefore oneNullAfter ["k"] 0 {} =
      { added := [], deleted := [], modified := [], is_identical := true } := by
  decide

/-- C5: two tables with identical schemas, the same non-empty inferred key
`k` (at threshold 3/5) and float tolerance 0, where the order-independent
checksums differ (a duplicated-key row was removed) while the precise diff
is empty — refuting the claimed checksum-precise agreement. -/
theorem c5_checksum_precise_disagreement :
    inferSortKeys dupKeyBefore ((3:Rat)/5) = ["k"] ∧
    inferSortKeys dupKeyAfter ((3:Rat)/5) = ["k"] ∧
    dupKeyBefore.schema = dupKeyAfter.schema ∧
    generateChecksum dupKeyBefore ((3:Rat)/5) [] ≠
      generateChecksum dupKeyAfter ((3:Rat)/5) [] ∧
    compareDataframesPl dupKeyBefore dupKeyAfter ["k"] 0 {} =
      { added := [], deleted := [], modified := [], is_identical := true } := by
  decide

/-- C8: comparing a keyless readable table against itself (skip_checksum
false, no ignore rules) yields `DIFFERENCES_FOUND`, not `FUZZY_IDENTICAL`:
the null blocking-column value is dropped by `groupby`, so the null-keyed
row can never be matched. -/
theorem c8_reflexivity_bug :
    runComparator jwModel nullBlockTable nullBlockTable ((99:Rat)/100)
      ((4:Rat)/5) 0 [] false = some ⟨"DIFFERENCES_FOUND", false⟩ ∧
    "DIFFERENCES_FOUND" ≠ "FUZZY_IDENTICAL" := by
  decide

/-- C1 counterexample: a pair that goes down the fuzzy path (no key
inferable) whose fuzzy diff has one added and one deleted row gets status
`DIFFERENCES_FOUND`, not the claimed `FUZZY_DIFFERENCES_FOUND`. -/
theorem c1_fuzzy_status_counterexample :
    runComparator jwModel fuzzyStatusBefore fuzzyStatusAfter ((99:Rat)/100)
      ((4:Rat)/5) 0 [] false = some ⟨"DIFFERENCES_FOUND", false⟩ ∧
    (fuzzyCompare jwModel (commonProj fuzzyStatusBefore fuzzyStatusAfter []).1
        (commonProj fuzzyStatusBefore fuzzyStatusAfter []).2
        ((4:Rat)/5)).map FuzzyOut.is_identical = some false ∧
    inferSortKeysPl (commonProj fuzzyStatusBefore fuzzyStatusAfter []).1
      ((99:Rat)/100) = [] ∧
    "DIFFERENCES_FOUND" ≠ "FUZZY_DIFFERENCES_FOUND" := by
  decide

/-- C3 counterexample: a pair with differing schemas, skip_checksum false
and an inferable key does run the checksum stage, refuting the claim that
checksums are never computed when schemas differ. -/
theorem c3_checksum_gate_counterexample :
    runComparator jwModel schemaDriftBefore schemaDriftAfter ((99:Rat)/100)
      ((4:Rat)/5) 0 [] false = some ⟨"DIFFERENCES_FOUND", true⟩ ∧
    (checkSchemas schemaDriftBefore.schema schemaDriftAfter.schema).is_identical
      = false := by
  decide

/-- C2 counterexample: when no provided sort key is a common column and the
schema diff is non-identical, the precise comparator returns empty added,
deleted and modified tables with `is_identical = false` — so the flag is
not equivalent to the three tables being empty. -/
theorem c2_identical_flag_counterexample :
    (compareDataframesPl tinyTable tinyTable ["z"] 0
        { is_identical := false }).added = [] ∧
    (compareDataframesPl tinyTable tinyTable ["z"] 0
        { is_identical := false }).deleted = [] ∧
    (compareDataframesPl tinyTable tinyTable ["z"] 0
        { is_identical := false }).modified = [] ∧
    (compareDataframesPl tinyTable tinyTable ["z"] 0
        { is_identical := false }).is_identical = false := by
  decide

/-- C6 counterexample: on a table whose first column holds `x` and null
(pandas `is_unique`, but `n_unique = 1 ≠ 2 = n_rows`) and whose second
column is perfectly unique and non-numeric, the inferrer returns the first
column, not the first perfectly-unique (`n_unique == n_rows`) non-numeric
column. -/
theorem c6_key_inference_counterexample :
    inferSortKeys nullKeyTable ((99:Rat)/100) = ["a"] ∧
    nullKeyTable.schema.find? (fun c =>
      nuniqueVals (nullKeyTable.colVals c.1) = nullKeyTable.height
        ∧ ¬ c.2.isNumericPandas) = some ("b", Dtype.dStr) ∧
    ("a" : String) ≠ "b" := by
  decide

/-- C10: when none of the provided sort keys is among the common columns,
the precise comparator returns empty added, deleted and modified tables
and an identical flag equal to `schema_diff.is_identical`, regardless of
row contents. -/
theorem c10_keys_absent (dfB dfA : Table) (sortKeys : List String)
    (tol : Rat) (sd : SchemaDiff)
    (h : ∀ k ∈ sortKeys, k ∉ commonColsOf dfB dfA) :
    compareDataframesPl dfB dfA sortKeys tol sd =
      { added := [], deleted := [], modified := [],
        is_identical := sd.is_identical } := by
  have hf : sortKeys.filter (fun k => k ∈ commonColsOf dfB dfA) = [] := by
    simp only [List.filter_eq_nil_iff]
    intro k hk
    simpa using h k hk
  unfold compareDataframesPl
  simp [hf]

/-- C10 witness: a concrete pair with a key absent from the common
columns. -/
theorem c10_keys_absent_witness :
    compareDataframesPl tinyTable tinyTable ["z"] 0 { is_identical := true } =
      { added := [], deleted := [], modified := [], is_identical := true } :=
  c10_keys_absent tinyTable tinyTable ["z"] 0 { is_identical := true }
    (by decide)

/-- C2 amended: the identical flag of the precise comparator is true iff its
added, deleted and modified tables are all empty AND the schema diff is
identical — the flag does fold `schema_diff.is_identical` in. -/
theorem c2_identical_flag_amended (dfB dfA : Table) (sortKeys : List String)
    (tol : Rat) (sd : SchemaDiff) :
    (compareDataframesPl dfB dfA sortKeys tol sd).is_identical = true ↔
      ((compareDataframesPl dfB dfA sortKeys tol sd).added = [] ∧
       (compareDataframesPl dfB dfA sortKeys tol sd).deleted = [] ∧
       (compareDataframesPl dfB dfA sortKeys tol sd).modified = [] ∧
       sd.is_identical = true) := by
  simp only [compareDataframesPl]
  split
  · simp
  · simp

/-- C1 amended: for every pair processed through the fuzzy path (no sort
key inferred) whose fuzzy diff is not identical (at least one added,
deleted or modified row), the status of the orchestrator is the string
`DIFFERENCES_FOUND` (and the checksum stage did not run). -/
theorem c1_fuzzy_status_amended (jw : String → String → Rat)
    (dfBraw dfAraw : Table) (kt ft tol : Rat) (ign : List String)
    (skip : Bool) (fz : FuzzyOut)
    (hkeys : inferSortKeysPl (commonProj dfBraw dfAraw ign).1 kt = [])
    (hfz : fuzzyCompare jw (commonProj dfBraw dfAraw ign).1
      (commonProj dfBraw dfAraw ign).2 ft = some fz)
    (hnid : fz.is_identical = false) :
    runComparator jw dfBraw dfAraw kt ft tol ign skip =
      some ⟨"DIFFERENCES_FOUND", false⟩ := by
  have hgate : ¬ runChecksumGate dfBraw dfAraw kt ign skip := by
    simp [runChecksumGate, hkeys]
  simp only [runComparator]
  refine Option.map_eq_some.mpr ⟨"DIFFERENCES_FOUND", ?_, by simp [hgate]⟩
  simp only [runStatus, hkeys, hfz, hnid]
  simp [generateChecksumPl, hgate]

/-- C1 witness: a concrete keyless pair with a non-identical fuzzy diff. -/
theorem c1_fuzzy_status_witness :
    runComparator jwModel fuzzyStatusBefore fuzzyStatusAfter ((99:Rat)/100)
      ((4:Rat)/5) 0 [] false = some ⟨"DIFFERENCES_FOUND", false⟩ :=
  c1_fuzzy_status_amended jwModel fuzzyStatusBefore fuzzyStatusAfter
    ((99:Rat)/100) ((4:Rat)/5) 0 [] false
    { addedIdx := [1], deletedIdx := [1],
      added := [[("s", Val.vStr ("y"))]], deleted := [[("s", Val.vStr ("x"))]],
      modified := [], pairs := [⟨0, 0, 1⟩], is_identical := false }
    (by decide) (by decide) (by decide)

/-- C3 amended: whenever the orchestrator returns a verdict, the checksum
stage was invoked iff skip_checksum was false and the inferred sort-key
list was non-empty — schema identity plays no part in the gate. -/
theorem c3_checksum_gate_amended (jw : String → String → Rat)
    (dfBraw dfAraw : Table) (kt ft tol : Rat) (ign : List String)
    (skip : Bool) (out : RunOut)
    (h : runComparator jw dfBraw dfAraw kt ft tol ign skip = some out) :
    out.checksumRan = true ↔
      (skip = false ∧
        inferSortKeysPl (commonProj dfBraw dfAraw ign).1 kt ≠ []) := by
  simp only [runComparator] at h
  obtain ⟨s, hs, rfl⟩ := Option.map_eq_some.mp h
  simp [runChecksumGate, Bool.not_eq_true]

/-- C3 witness: a concrete pair with differing schemas on which the
checksum stage ran. -/
theorem c3_checksum_gate_witness :
    ((true : Bool) = true ↔
      ((false : Bool) = false ∧
        inferSortKeysPl
          (commonProj schemaDriftBefore schemaDriftAfter []).1
          ((99:Rat)/100) ≠ [])) :=
  c3_checksum_gate_amended jwModel schemaDriftBefore schemaDriftAfter
    ((99:Rat)/100) ((4:Rat)/5) 0 [] false ⟨"DIFFERENCES_FOUND", true⟩
    (by decide)

/-- Characterisation of the first inference loop: it returns the first
unique non-numeric column if one exists, otherwise the collected unique
(numeric) candidates in scan order. -/
theorem inferScan_eq (t : Table) (cols : List (String × Dtype))
    (cands : List String) :
    inferScan t cols cands =
      match cols.find? (fun c =>
          isUniqueVals (t.colVals c.1) && !c.2.isNumericPandas) with
      | some c => Sum.inl [c.1]
      | none => Sum.inr (cands ++
          (cols.filter (fun c => isUniqueVals (t.colVals c.1))).map
            Prod.fst) := by
  induction cols generalizing cands with
  | nil => simp [inferScan]
  | cons c rest ih =>
    by_cases hu : isUniqueVals (t.colVals c.1)
    · by_cases hn : c.2.isNumericPandas
      · rw [inferScan]
        simp only [hu, hn]
        rw [if_pos (by simp [hu]), if_neg (by simp [hn]), ih]
        simp [List.find?_cons, hu, hn, List.filter_cons]
      · rw [inferScan]
        rw [if_pos (by simp [hu]), if_pos (by simp [hn])]
        simp [List.find?_cons, hu, hn]
    · rw [inferScan, if_neg (by simp [hu]), ih]
      simp [List.find?_cons, hu, List.filter_cons]

/-- First element of a filtered-and-mapped list, as a `find?`. -/
theorem filter_map_take_one {α β : Type} (p : α → Bool) (f : α → β)
    (l : List α) :
    ((l.filter p).map f).take 1 =
      match l.find? p with
      | some a => [f a]
      | none => [] := by
  induction l with
  | nil => simp
  | cons a rest ih =>
    by_cases hp : p a
    · simp [List.filter_cons, List.find?_cons, hp]
    · simp [List.filter_cons, List.find?_cons, hp, ih]

/-- C6 amended: the key inferrer returns the first unique non-numeric
column if one exists, otherwise the first unique column, otherwise the
first column with uniqueness fraction at least the threshold, otherwise
the empty list; a zero-row table yields the empty list.  Here unique is
pandas `is_unique` (no duplicated values, all nulls colliding), which
differs from the n_unique == n_rows reading of the spec on columns containing a
single null. -/
theorem c6_key_inference_amended (t : Table) (q : Rat) :
    inferSortKeys t q =
      if t.height = 0 then []
      else
        match t.schema.find? (fun c =>
            isUniqueVals (t.colVals c.1) && !c.2.isNumericPandas) with
        | some c => [c.1]
        | none =>
          match t.schema.find? (fun c => isUniqueVals (t.colVals c.1)) with
          | some c => [c.1]
          | none =>
            match t.schema.find? (fun c =>
                decide (q ≤ (nuniqueVals (t.colVals c.1) : Rat)
                  / t.height)) with
            | some c => [c.1]
            | none => [] := by
  unfold inferSortKeys
  split
  · rfl
  · rw [inferScan_eq]
    cases hf : t.schema.find? (fun c =>
        isUniqueVals (t.colVals c.1) && !c.2.isNumericPandas) with
    | some c => rfl
    | none =>
      simp only [List.nil_append]
      cases hf2 : t.schema.find? (fun c => isUniqueVals (t.colVals c.1)) with
      | some c =>
        have ht : ((t.schema.filter (fun c =>
            isUniqueVals (t.colVals c.1))).map Prod.fst).take 1 = [c.1] := by
          rw [filter_map_take_one]
          simp [hf2]
        have hne : (t.schema.filter (fun c =>
            isUniqueVals (t.colVals c.1))).map Prod.fst ≠ [] := by
          intro hz
          rw [hz] at ht
          simp at ht
        rw [if_pos hne, ht]
      | none =>
        have hz : (t.schema.filter (fun c =>
            isUniqueVals (t.colVals c.1))).map Prod.fst = [] := by
          rw [List.find?_eq_none] at hf2
          rw [List.filter_eq_nil_iff.mpr hf2]
          rfl
        rw [if_neg (by simp [hz]), filter_map_take_one]
        cases hf3 : List.find? (fun c =>
            decide (q ≤ (nuniqueVals (t.colVals c.1) : Rat) / t.height))
          t.schema <;> rfl

/-- The candidate scan never selects an already-claimed index (unless it
was already selected in the accumulator). -/
theorem bestScan_mem (sim : Row → Rat) (matched : List Nat) :
    ∀ (cands : List (Nat × Row)) (acc : Option Nat × Rat) (j : Nat),
      (bestScan sim matched acc cands).1 = some j →
      acc.1 = some j ∨ j ∉ matched := by
  intro cands
  induction cands with
  | nil => intro acc j h; exact Or.inl h
  | cons p rest ih =>
    intro acc j h
    rw [bestScan] at h
    by_cases hm : p.1 ∈ matched
    · rw [if_pos (by simpa using hm)] at h
      exact ih acc j h
    · rw [if_neg (by simpa using hm)] at h
      by_cases himp : acc.2 < sim p.2
      · rw [if_pos himp] at h
        rcases ih _ j h with h1 | h1
        · cases Option.some.inj h1
          exact Or.inr hm
        · exact Or.inr h1
      · rw [if_neg himp] at h
        exact ih acc j h

/-- Invariant preservation along an `Option`-valued left fold. -/
theorem foldlM_option_inv {α σ : Type} (f : σ → α → Option σ)
    (P : σ → Prop) (hf : ∀ s a s2, f s a = some s2 → P s → P s2) :
    ∀ (l : List α) (s s2 : σ), List.foldlM f s l = some s2 → P s → P s2 := by
  intro l
  induction l with
  | nil =>
    intro s s2 h hp
    cases h
    exact hp
  | cons a rest ih =>
    intro s s2 h hp
    rw [List.foldlM_cons] at h
    rcases Option.bind_eq_some.mp h with ⟨s1, h1, h2⟩
    exact ih s1 s2 h2 (hf s a s1 h1 hp)

/-- One greedy step preserves: the claimed-after list is exactly the match
after ids of the match list, it has no duplicates, and every match scored at least
the threshold. -/
theorem fuzzyStep_inv (jw : String → String → Rat) (threshold : Rat)
    (blocking : Option String) (weights : List (String × Rat))
    (cols : List String) (afterRows : List (Nat × Row))
    (st st2 : FuzzyState) (p : Nat × Row)
    (h : fuzzyStep jw threshold blocking weights cols afterRows st p
      = some st2)
    (hinv : st.matchedAfter = st.pairs.map FuzzyMatch.idAfter ∧
      st.matchedAfter.Nodup ∧ ∀ m ∈ st.pairs, threshold ≤ m.score) :
    st2.matchedAfter = st2.pairs.map FuzzyMatch.idAfter ∧
      st2.matchedAfter.Nodup ∧ ∀ m ∈ st2.pairs, threshold ≤ m.score := by
  rw [fuzzyStep] at h
  by_cases hth : threshold ≤ (bestScan
      (fun ra => rowSim jw weights cols p.2 ra) st.matchedAfter (none, 0)
      (searchRows blocking afterRows p.2)).2
  · rw [if_pos hth] at h
    rcases hb : (bestScan (fun ra => rowSim jw weights cols p.2 ra)
        st.matchedAfter (none, 0)
        (searchRows blocking afterRows p.2)).1 with _ | j
    · rw [hb] at h
      exact absurd h (by simp)
    · rw [hb] at h
      cases h
      have hj : j ∉ st.matchedAfter := by
        rcases bestScan_mem (fun ra => rowSim jw weights cols p.2 ra)
            st.matchedAfter (searchRows blocking afterRows p.2)
            (none, 0) j hb with h1 | h1
        · exact absurd h1 (by simp)
        · exact h1
      refine ⟨?_, ?_, ?_⟩
      · simp [hinv.1]
      · simp only [List.nodup_append, List.nodup_cons, List.nodup_nil]
        exact ⟨hinv.2.1, by simp, by simpa using hj⟩
      · intro m hm
        rcases List.mem_append.mp hm with h1 | h1
        · exact hinv.2.2 m h1
        · rcases List.mem_singleton.mp h1 with rfl
          exact hth
  · rw [if_neg hth] at h
    cases h
    exact hinv

/-- C7: in every output of the fuzzy comparator, the added after-row ids
are disjoint from the match-claimed after-row ids, no after-row id is
claimed by more than one before-row, and every accepted match scored at
least the threshold. -/
theorem c7_fuzzy_invariants (jw : String → String → Rat) (dfB dfA : Table)
    (threshold : Rat) (out : FuzzyOut)
    (h : fuzzyCompare jw dfB dfA threshold = some out) :
    (∀ i ∈ out.addedIdx, ∀ m ∈ out.pairs, i ≠ m.idAfter) ∧
      (out.pairs.map FuzzyMatch.idAfter).Nodup ∧
      ∀ m ∈ out.pairs, threshold ≤ m.score := by
  rw [fuzzyCompare] at h
  rcases hf : List.foldlM
      (fun st p => fuzzyStep jw threshold (findBestBlockingColumn dfB)
        (columnWeights dfB) dfB.colNames dfA.rows.enum st p)
      ({} : FuzzyState) dfB.rows.enum with _ | st
  · rw [hf] at h
    exact absurd h (by simp)
  · rw [hf] at h
    have hinv : st.matchedAfter = st.pairs.map FuzzyMatch.idAfter ∧
        st.matchedAfter.Nodup ∧ ∀ m ∈ st.pairs, threshold ≤ m.score := by
      refine foldlM_option_inv _
        (fun s => s.matchedAfter = s.pairs.map FuzzyMatch.idAfter ∧
          s.matchedAfter.Nodup ∧ ∀ m ∈ s.pairs, threshold ≤ m.score)
        ?_ dfB.rows.enum {} st hf ?_
      · intro s a s2 hstep hp
        exact fuzzyStep_inv jw threshold (findBestBlockingColumn dfB)
          (columnWeights dfB) dfB.colNames dfA.rows.enum s s2 a hstep hp
      · exact ⟨rfl, List.nodup_nil, by simp⟩
    cases h
    refine ⟨?_, ?_, hinv.2.2⟩
    · intro i hi m hm hcontra
      have hnot : i ∉ st.matchedAfter := by
        have := List.of_mem_filter hi
        simpa using this
      have : m.idAfter ∈ st.matchedAfter := by
        rw [hinv.1]
        exact List.mem_map_of_mem FuzzyMatch.idAfter hm
      exact hnot (hcontra ▸ this)
    · rw [← hinv.1]
      exact hinv.2.1

/-- C7 witness: a one-row keyless table fuzzily compared against itself
produces a valid output whose single match scores 1 ≥ 4/5. -/
theorem c7_fuzzy_invariants_witness :
    (4:Rat)/5 ≤ (1:Rat) :=
  (c7_fuzzy_invariants jwModel tinyFuzzyTable tinyFuzzyTable ((4:Rat)/5)
    { addedIdx := [], deletedIdx := [], added := [], deleted := [],
      modified := [], pairs := [⟨0, 0, 1⟩], is_identical := true }
    (by decide)).2.2 ⟨0, 0, 1⟩ (by decide)

/-- C9: the summary shaper computes rows_modified as the number of
distinct key values of the modified table, and top_modified_fields is at
most five entries, one per distinct modified column with its exact
modification count, sorted by descending count with ties broken by
ascending column name, and containing only columns that dominate (in that
order) every distinct modified column left out. -/
theorem c9_summary_shape (modified : List ModRecord) :
    summaryRowsModified modified =
      (modified.map ModRecord.key).toFinset.card ∧
    (summaryTopModified modified).length =
      min 5 (columnCounts modified).length ∧
    ((summaryTopModified modified).map Prod.fst).Nodup ∧
    (summaryTopModified modified).Sorted topFieldLe ∧
    (∀ p ∈ summaryTopModified modified,
      p.1 ∈ modified.map ModRecord.column ∧
      p.2 = columnModCount modified p.1) ∧
    (∀ q ∈ columnCounts modified, q ∉ summaryTopModified modified →
      ∀ p ∈ summaryTopModified modified, topFieldLe p q) := by
  by_cases hmod : 0 < modified.length
  case neg =>
    have hnil : modified = [] := by
      cases modified with
      | nil => rfl
      | cons a l => exact absurd (by simp) hmod
    subst hnil
    refine ⟨by simp [summaryRowsModified], ?_, ?_, ?_, ?_, ?_⟩ <;>
      simp [summaryTopModified, columnCounts, List.Sorted]
  case pos =>
    have hccfst : (columnCounts modified).map Prod.fst =
        (modified.map (fun m => m.column)).dedup := by
      simp [columnCounts, List.map_map, Function.comp_def]
    have hccN : ((columnCounts modified).map Prod.fst).Nodup := by
      rw [hccfst]
      exact List.nodup_dedup _
    have hperm : List.Perm
        ((columnCounts modified).insertionSort topFieldLe)
        (columnCounts modified) := List.perm_insertionSort topFieldLe _
    have hsorted : ((columnCounts modified).insertionSort
        topFieldLe).Sorted topFieldLe :=
      List.sorted_insertionSort topFieldLe _
    have htop : summaryTopModified modified =
        ((columnCounts modified).insertionSort topFieldLe).take 5 := by
      simp [summaryTopModified, hmod]
    refine ⟨?_, ?_, ?_, ?_, ?_, ?_⟩
    · simp [summaryRowsModified, hmod, List.card_toFinset]
    · rw [htop, List.length_take, hperm.length_eq]
    · rw [htop, List.map_take]
      exact ((hperm.map Prod.fst).nodup_iff.mpr hccN).sublist
        (List.take_sublist _ _)
    · rw [htop]
      exact List.Pairwise.sublist (List.take_sublist _ _) hsorted
    · rw [htop]
      intro p hp
      have hmem : p ∈ columnCounts modified :=
        hperm.mem_iff.mp ((List.take_sublist _ _).mem hp)
      rcases List.mem_map.mp hmem with ⟨c, hc, rfl⟩
      have hcc : c ∈ modified.map (fun m => m.column) :=
        List.mem_dedup.mp hc
      exact ⟨by simpa using hcc, rfl⟩
    · rw [htop]
      intro q hq hqn p hp
      have hq2 : q ∈ ((columnCounts modified).insertionSort
          topFieldLe).drop 5 := by
        have hmem : q ∈ ((columnCounts modified).insertionSort
            topFieldLe).take 5 ++ ((columnCounts modified).insertionSort
            topFieldLe).drop 5 := by
          rw [List.take_append_drop]
          exact hperm.mem_iff.mpr hq
        rcases List.mem_append.mp hmem with h1 | h1
        · exact absurd h1 hqn
        · exact h1
      have hps := hsorted
      rw [← List.take_append_drop 5 ((columnCounts modified).insertionSort
        topFieldLe)] at hps
      exact (List.pairwise_append.mp hps).2.2 p hp q hq2

/-- C9 witness: the shaper applied to a concrete three-record modified
table. -/
theorem c9_summary_shape_witness :
    summaryRowsModified exampleMods =
      (exampleMods.map ModRecord.key).toFinset.card :=
  (c9_summary_shape exampleMods).1

end ClaimTheorems
